import Mathlib

/-!
Verification of the batch-enrichment orchestrator of the
Apollo Enrichment Studio repository (React dashboard plus a Netlify
serverless function).

The embedding follows the source:
* the client component (`parseCSV`, `calculateQualityScore`,
  `removeDuplicates`, `enrichContactsBatch`, `startEnrichment`,
  `pauseEnrichment`) in the main component file;
* the serverless function `netlify/functions/apollo-enrichment.mts`
  (`default handler`, `enrichSingleContact`, `enrichContactsBulk`,
  `mapApolloPersonToContact`, `calculateContactQualityScore`).

JavaScript strings are modelled as `String`, with the empty string
standing for both `''` and an absent (`undefined`/`null`) field, so
JS truthiness of a string field is `≠ ""`.  Nullable non-string
values are modelled with `Option`.  The asynchronous loop of
`startEnrichment` is sequential in the source (each batch is awaited
before the next starts), so it is embedded as a pure fold over the
batch list; the outcome of each external call is supplied by an
oracle `Nat → BatchOutcome` indexed by batch number, and the
`AbortController` signal by a function `Nat → Bool` giving the value
the signal check reads at the top of each iteration (and once more
after the loop).
-/

namespace TDTools

/-- A contact row as produced by `parseCSV`: firstName / lastName /
domain / email, all strings (missing fields become `""`). -/
structure Contact where
  firstName : String
  lastName : String
  domain : String
  email : String
deriving DecidableEq, Repr

/-- One entry of a person's `employment_history` as used by
`mapApolloPersonToContact` (only the fields the source reads). -/
structure Employment where
  current : Bool
  title : String
  organizationName : String
deriving DecidableEq, Repr

/-- The fields of an Apollo person record that the serverless
function reads (`mapApolloPersonToContact` and
`calculateContactQualityScore`).  `phoneNumbers` holds the
`sanitized_number` strings of `phone_numbers`. -/
structure ApolloPerson where
  email : String
  title : String
  linkedinUrl : String
  organizationName : String
  city : String
  state : String
  country : String
  photoUrl : String
  headline : String
  twitterUrl : String
  githubUrl : String
  facebookUrl : String
  organizationId : String
  id : String
  emailStatus : String
  phoneNumbers : List String
  employmentHistory : List Employment
deriving DecidableEq, Repr

/-- An enriched contact record: the contact fields plus the fields
written by `mapApolloPersonToContact`, an `enrichmentStatus` string
(`"success"` / `"failed"`), an optional `error` message and the
server-side `qualityScore`.  Fields a given code path never writes
are `""` / `[]` / `none` / `0`, mirroring `undefined`. -/
structure EnrichedContact where
  firstName : String
  lastName : String
  domain : String
  email : String
  title : String
  company : String
  linkedinUrl : String
  phone : String
  location : String
  photoUrl : String
  headline : String
  twitterUrl : String
  githubUrl : String
  facebookUrl : String
  organizationId : String
  personId : String
  emailStatus : String
  employmentHistory : List Employment
  enrichmentStatus : String
  error : Option String
  qualityScore : Nat
deriving DecidableEq, Repr

/-- JavaScript `a || b` on strings: `""` is falsy. -/
def strOr (a b : String) : String := if a = "" then b else a

/-- JavaScript `String.prototype.trim`: drop whitespace from both
ends (written over the character list so that it evaluates by
kernel reduction). -/
def jsTrim (s : String) : String :=
  ⟨List.reverse (List.dropWhile Char.isWhitespace
    (List.reverse (List.dropWhile Char.isWhitespace s.data)))⟩

/-- JavaScript `o || d` where `o` is a possibly-absent number:
`undefined` and `0` are falsy. -/
def natOr (o : Option Nat) (d : Nat) : Nat :=
  match o with
  | some n => if n = 0 then d else n
  | none => d

/-- JavaScript `o || d` where `o` is a possibly-absent string:
`undefined` and `""` are falsy. -/
def optStrOr (o : Option String) (d : String) : String :=
  match o with
  | some s => if s = "" then d else s
  | none => d

/-- The failed record `{ ...contact, enrichmentStatus: 'failed',
error: msg }` synthesized both by the client (for a failed batch)
and by the serverless function (for a contact with no match). -/
def failedEnriched (c : Contact) (msg : String) : EnrichedContact :=
  { firstName := c.firstName, lastName := c.lastName, domain := c.domain,
    email := c.email, title := "", company := "", linkedinUrl := "",
    phone := "", location := "", photoUrl := "", headline := "",
    twitterUrl := "", githubUrl := "", facebookUrl := "",
    organizationId := "", personId := "", emailStatus := "",
    employmentHistory := [], enrichmentStatus := "failed",
    error := some msg, qualityScore := 0 }

/-! ## Batch partition

`startEnrichment` builds the batch list with
`for (let i = 0; i < csvData.length; i += batchSize)
   batches.push(csvData.slice(i, i + batchSize))`.
`chunkGo` carries the list length as structural fuel so that the
definition is structurally recursive and kernel-computable; for
`0 < B` the fuel never runs out, as `chunkGo_join` and
`chunkGo_length` show. -/

/-- Fuel-indexed worker for `chunkList`. -/
def chunkGo (B : Nat) : Nat → List Contact → List (List Contact)
  | _, [] => []
  | 0, _ :: _ => []
  | fuel + 1, x :: xs => ((x :: xs).take B) :: chunkGo B fuel ((x :: xs).drop B)

/-- The batch partition of `startEnrichment`: successive slices of
length `B` (last one possibly shorter) of the contact list. -/
def chunkList (B : Nat) (l : List Contact) : List (List Contact) :=
  chunkGo B l.length l

theorem chunkGo_join (B : Nat) (hB : 0 < B) :
    ∀ (fuel : Nat) (l : List Contact), l.length ≤ fuel →
      (chunkGo B fuel l).flatten = l := by
  intro fuel
  induction fuel with
  | zero =>
    intro l hl
    cases l with
    | nil => rfl
    | cons x xs => simp at hl
  | succ n ih =>
    intro l hl
    cases l with
    | nil => rfl
    | cons x xs =>
      have hdrop : ((x :: xs).drop B).length ≤ n := by
        simp only [List.length_drop, List.length_cons]
        simp only [List.length_cons] at hl
        omega
      simp only [chunkGo, List.flatten_cons, ih _ hdrop]
      exact List.take_append_drop B (x :: xs)

/-- Concatenating the batches in order gives back the input list
(the partition is contiguous and order-preserving). -/
theorem chunkList_join (B : Nat) (hB : 0 < B) (l : List Contact) :
    (chunkList B l).flatten = l :=
  chunkGo_join B hB l.length l le_rfl

theorem chunkGo_length (B : Nat) (hB : 0 < B) :
    ∀ (fuel : Nat) (l : List Contact), l.length ≤ fuel →
      (chunkGo B fuel l).length = (l.length + B - 1) / B := by
  intro fuel
  induction fuel with
  | zero =>
    intro l hl
    cases l with
    | nil =>
      simp only [chunkGo, List.length_nil]
      rw [Nat.div_eq_of_lt (by omega)]
    | cons x xs => simp at hl
  | succ n ih =>
    intro l hl
    cases l with
    | nil =>
      simp only [chunkGo, List.length_nil]
      rw [Nat.div_eq_of_lt (by omega)]
    | cons x xs =>
      have hdrop : ((x :: xs).drop B).length ≤ n := by
        simp only [List.length_drop, List.length_cons]
        simp only [List.length_cons] at hl
        omega
      simp only [chunkGo, List.length_cons, ih _ hdrop, List.length_drop,
        List.length_cons]
      have h2 : xs.length + 1 + B - 1 = xs.length + B := by omega
      rw [h2, Nat.add_div_right _ hB]
      rcases le_or_lt (xs.length + 1) B with hle | hgt
      · have h1 : xs.length + 1 - B = 0 := by omega
        rw [h1]
        rw [Nat.div_eq_of_lt (by omega), Nat.div_eq_of_lt (by omega)]
      · have h1 : xs.length + 1 - B + B - 1 = (xs.length - B) + B := by omega
        have h3 : xs.length = (xs.length - B) + B := by omega
        rw [h1, Nat.add_div_right _ hB]
        conv_rhs => rw [h3, Nat.add_div_right _ hB]

/-- The number of batches is `⌈N / B⌉` (written with natural
division as `(N + B - 1) / B`). -/
theorem chunkList_length (B : Nat) (hB : 0 < B) (l : List Contact) :
    (chunkList B l).length = (l.length + B - 1) / B :=
  chunkGo_length B hB l.length l le_rfl

/-! ## Client quality score

`calculateQualityScore` in the component: per contact
`email → 30, linkedinUrl → 25, title → 20, company → 15,
location → 10`, then `Math.round(sum / count)`.  The arguments are
small naturals, so the JS float division plus `Math.round`
(round-half-up) equals the exact rational rounding, written here as
`(2 * sum + count) / (2 * count)` in natural division. -/

/-- The per-contact score summed by `calculateQualityScore`. -/
def contactScore (c : EnrichedContact) : Nat :=
  (if c.email ≠ "" then 30 else 0) +
  (if c.linkedinUrl ≠ "" then 25 else 0) +
  (if c.title ≠ "" then 20 else 0) +
  (if c.company ≠ "" then 15 else 0) +
  (if c.location ≠ "" then 10 else 0)

/-- Round-half-up of `a / b` for naturals (`Math.round` of the
exact quotient). -/
def roundedDiv (a b : Nat) : Nat := (2 * a + b) / (2 * b)

/-- `calculateQualityScore`: `0` on the empty list, otherwise the
rounded mean of the per-contact scores. -/
def calculateQualityScore (l : List EnrichedContact) : Nat :=
  if l.length = 0 then 0
  else roundedDiv (l.map contactScore).sum l.length

/-! ## The batch loop of `startEnrichment`

The external call `enrichContactsBatch` either resolves to the
parsed JSON response (`success`, `data`, `apiCalls`, `error`) or
throws (network failure or non-ok HTTP status). -/

/-- The parsed JSON body returned by `enrichContactsBatch`.  `data`
is `none` when absent/null (an empty array is `some []`, which is
truthy in JS). -/
structure BatchResponse where
  success : Bool
  data : Option (List EnrichedContact)
  apiCalls : Option Nat
  error : Option String
deriving DecidableEq, Repr

/-- Outcome of one batch's external call: the awaited response, or
a thrown error with its message. -/
inductive BatchOutcome where
  | resolved (r : BatchResponse)
  | thrown (msg : String)
deriving DecidableEq, Repr

/-- Whether the outcome is a thrown error (the `catch` path of the
batch loop). -/
def BatchOutcome.isThrown : BatchOutcome → Bool
  | .thrown _ => true
  | .resolved _ => false

/-- The loop accumulators of `startEnrichment`: `results`,
`successCount`, `failCount`, `apiCallCount`. -/
structure LoopState where
  results : List EnrichedContact
  successCount : Nat
  failCount : Nat
  apiCallCount : Nat
deriving DecidableEq, Repr

/-- The initial accumulators (`results = []`, counters `0`). -/
def initState : LoopState := ⟨[], 0, 0, 0⟩

/-- The per-entry merge loop `for (const enriched of
batchResult.data) { ... }`: a success-status entry bumps
`successCount`, any other bumps `failCount`; every entry is pushed
onto `results`. -/
def mergeData (s : LoopState) (d : List EnrichedContact) : LoopState :=
  d.foldl
    (fun s e =>
      if e.enrichmentStatus = "success" then
        { s with successCount := s.successCount + 1,
                 results := s.results ++ [e] }
      else
        { s with failCount := s.failCount + 1,
                 results := s.results ++ [e] })
    s

/-- The body of one iteration of the batch loop (after the abort
check), covering the `try`/`catch` of `startEnrichment`:
on a thrown call, synthesize a failed record per batch member and
bump `failCount` by the batch size (no API-call increment); on a
resolved call, bump `apiCallCount` by `batchResult.apiCalls || 1`,
then either merge `batchResult.data` (when `success` and `data` are
truthy) or synthesize failed records carrying
`batchResult.error || 'Unknown error'`. -/
def stepBatch (s : LoopState) (batch : List Contact) (o : BatchOutcome) :
    LoopState :=
  match o with
  | .thrown msg =>
    { s with
        results := s.results ++ batch.map (fun c => failedEnriched c msg),
        failCount := s.failCount + batch.length }
  | .resolved r =>
    let s1 := { s with apiCallCount := s.apiCallCount + natOr r.apiCalls 1 }
    match r.data with
    | some d =>
      if r.success then mergeData s1 d
      else
        { s1 with
            results := s1.results ++
              batch.map (fun c => failedEnriched c (optStrOr r.error "Unknown error")),
            failCount := s1.failCount + batch.length }
    | none =>
      { s1 with
          results := s1.results ++
            batch.map (fun c => failedEnriched c (optStrOr r.error "Unknown error")),
          failCount := s1.failCount + batch.length }

/-- A processed batch as recorded in the run trace: its index, its
contacts, the outcome of its external call, and whether the
inter-batch `setTimeout(..., 1000)` ran after it (it sits inside the
`try`, after the stats update, guarded by
`batchIndex < batches.length - 1`; a thrown call skips it). -/
structure BatchProc where
  index : Nat
  batch : List Contact
  outcome : BatchOutcome
  delayed : Bool
deriving DecidableEq, Repr

/-- The `for (let batchIndex = 0; ...)` loop: at the top of each
iteration the abort signal is read (`abort i`); if raised the loop
breaks (third component `true`).  Otherwise the batch is processed
by `stepBatch` with the oracle's outcome and recorded in the
trace. -/
def runBatches (oracle : Nat → BatchOutcome) (abort : Nat → Bool)
    (total : Nat) : Nat → List (List Contact) → LoopState →
    LoopState × List BatchProc × Bool
  | _, [], s => (s, [], false)
  | i, b :: rest, s =>
    if abort i then (s, [], true)
    else
      let o := oracle i
      let s1 := stepBatch s b o
      let delayed := !o.isThrown && decide (i < total - 1)
      let (sF, ps, ab) := runBatches oracle abort total (i + 1) rest s1
      (sF, ⟨i, b, o, delayed⟩ :: ps, ab)

/-- The run life-cycle states of the specification. -/
inductive RunState where
  | Idle
  | Running
  | Paused
  | Completed
  | Failed
deriving DecidableEq, Repr

/-- The statistics of a run, with the values the loop accumulators
hold when the run ends (`processed = results.length`,
`creditsUsed = apiCallCount`, exactly as the `setStats` call of the
batch loop writes them). -/
structure RunStats where
  processed : Nat
  successful : Nat
  failed : Nat
  apiCalls : Nat
  creditsUsed : Nat
  qualityScore : Nat
deriving DecidableEq, Repr

/-- The observable result of one `startEnrichment` invocation. -/
structure RunResult where
  state : RunState
  results : List EnrichedContact
  stats : RunStats
  procs : List BatchProc
  totalBatches : Nat
deriving DecidableEq, Repr

/-- The result of a run that failed validation: nothing happened. -/
def idleResult : RunResult :=
  { state := .Idle, results := [], stats := ⟨0, 0, 0, 0, 0, 0⟩,
    procs := [], totalBatches := 0 }

/-- `startEnrichment`: validate the API key (`apiKey.trim()`
truthy) and the contact list (non-empty); partition into batches;
run the loop; compute the final quality score over the
success-status results; report `Paused` when the abort signal was
observed (at a loop top, or at the final check after the loop),
`Completed` otherwise. -/
def startEnrichment (apiKey : String) (csvData : List Contact)
    (batchSize : Nat) (abort : Nat → Bool) (oracle : Nat → BatchOutcome) :
    RunResult :=
  if jsTrim apiKey = "" then idleResult
  else if csvData.length = 0 then idleResult
  else
    let batches := chunkList batchSize csvData
    let r := runBatches oracle abort batches.length 0 batches initState
    let s := r.1
    let qs := calculateQualityScore
      (s.results.filter (fun e => e.enrichmentStatus = "success"))
    let finalAborted := r.2.2 || abort batches.length
    { state := if finalAborted then .Paused else .Completed,
      results := s.results,
      stats := { processed := s.results.length, successful := s.successCount,
                 failed := s.failCount, apiCalls := s.apiCallCount,
                 creditsUsed := s.apiCallCount, qualityScore := qs },
      procs := r.2.1,
      totalBatches := batches.length }

/-! ## Duplicate removal (`removeDuplicates`)

The component builds the key
`` `${firstName.toLowerCase()}-${lastName.toLowerCase()}-${domain.toLowerCase()}` ``
and filters with a `seen` set, pushing repeats onto `duplicates`. -/

/-- JavaScript `String.prototype.toLowerCase` (ASCII case folding,
written over the character list so that it evaluates by kernel
reduction). -/
def jsToLower (s : String) : String := ⟨s.data.map Char.toLower⟩

/-- The string key used by `removeDuplicates`. -/
def dupKey (c : Contact) : String :=
  jsToLower c.firstName ++ "-" ++ jsToLower c.lastName ++ "-" ++
    jsToLower c.domain

/-- The case-insensitive field triple of a contact (the key the
specification speaks of). -/
def tripleKey (c : Contact) : String × String × String :=
  (jsToLower c.firstName, jsToLower c.lastName, jsToLower c.domain)

/-- Worker for `removeDuplicates`, threading the `seen` key set
(as a list of keys) through the filter. -/
def removeDupsGo (seen : List String) :
    List Contact → List Contact × List Contact
  | [] => ([], [])
  | c :: rest =>
    if dupKey c ∈ seen then
      let p := removeDupsGo seen rest
      (p.1, c :: p.2)
    else
      let p := removeDupsGo (dupKey c :: seen) rest
      (c :: p.1, p.2)

/-- `removeDuplicates`: returns `(unique, duplicates)`. -/
def removeDuplicates (data : List Contact) : List Contact × List Contact :=
  removeDupsGo [] data

/-! ## The serverless function (`apollo-enrichment.mts`) -/

/-- What an upstream call to the Apollo single-person endpoint
yields inside `enrichSingleContact`: a thrown error (non-ok
response), or a parsed body whose `person` field is present or
absent. -/
inductive SingleUpstream where
  | thrown (msg : String)
  | ok (person : Option ApolloPerson)
deriving DecidableEq, Repr

/-- What the upstream bulk endpoint yields inside
`enrichContactsBulk`: a thrown error (non-ok response), a `matches`
array (one possibly-missing person per slot, `gotMatches`), or a
body whose `matches` is not an array. -/
inductive BulkUpstream where
  | thrown (msg : String)
  | gotMatches (ms : List (Option ApolloPerson))
  | malformed
deriving DecidableEq, Repr

/-- `calculateContactQualityScore` of the serverless function. -/
def calculateContactQualityScore (p : ApolloPerson) : Nat :=
  Nat.min 100
    ((if p.email ≠ "" ∧ p.emailStatus = "verified" then 35
      else if p.email ≠ "" then 20 else 0) +
     (if p.linkedinUrl ≠ "" then 25 else 0) +
     (if p.title ≠ "" then 20 else 0) +
     (if p.organizationName ≠ "" then 15 else 0) +
     (if p.city ≠ "" ∨ p.state ≠ "" then 10 else 0) +
     (if p.phoneNumbers.length > 0 then 10 else 0) +
     (if p.twitterUrl ≠ "" ∨ p.githubUrl ≠ "" then 5 else 0))

/-- `mapApolloPersonToContact`: spread of the original contact with
the Apollo person's fields (JS `||` fallbacks via `strOr`), status
`success`. -/
def mapApolloPersonToContact (orig : Contact) (p : ApolloPerson) :
    EnrichedContact :=
  let currentEmp := p.employmentHistory.find? (fun e => e.current)
  { firstName := orig.firstName, lastName := orig.lastName,
    domain := orig.domain,
    email := strOr p.email (strOr orig.email ""),
    title := strOr p.title
      (match currentEmp with | some e => e.title | none => ""),
    company := strOr p.organizationName
      (match currentEmp with | some e => e.organizationName | none => ""),
    linkedinUrl := p.linkedinUrl,
    phone := p.phoneNumbers.headD "",
    location :=
      String.intercalate ", "
        (([p.city, p.state, p.country]).filter (fun s => s ≠ "")),
    photoUrl := p.photoUrl, headline := p.headline,
    twitterUrl := p.twitterUrl, githubUrl := p.githubUrl,
    facebookUrl := p.facebookUrl, organizationId := p.organizationId,
    personId := p.id, emailStatus := p.emailStatus,
    employmentHistory := p.employmentHistory,
    enrichmentStatus := "success", error := none,
    qualityScore := calculateContactQualityScore p }

/-- The per-index assembly of `enrichContactsBulk` over
`result.matches`: `matches[i]` beyond the array length is
`undefined`, giving the no-match failed record. -/
def bulkAssemble : List Contact → List (Option ApolloPerson) →
    List EnrichedContact
  | [], _ => []
  | c :: cs, [] =>
    failedEnriched c "No match found in bulk enrichment" :: bulkAssemble cs []
  | c :: cs, m :: ms =>
    (match m with
     | some p => mapApolloPersonToContact c p
     | none => failedEnriched c "No match found in bulk enrichment") ::
      bulkAssemble cs ms

/-- The sequential per-contact loop of the non-bulk path of the
handler: a thrown `enrichSingleContact` contributes a failed record
with the thrown message, a body without `person` the
`No person data found` record, otherwise the mapped record. -/
def singleAssemble (single : Nat → SingleUpstream) :
    Nat → List Contact → List EnrichedContact
  | _, [] => []
  | i, c :: cs =>
    (match single i with
     | .thrown msg => failedEnriched c msg
     | .ok none => failedEnriched c "No person data found in Apollo database"
     | .ok (some p) => mapApolloPersonToContact c p) ::
      singleAssemble single (i + 1) cs

/-- The response of the serverless function as seen by the client:
HTTP status, `success`, `data`, `apiCalls`, `error`. -/
structure HandlerResponse where
  status : Nat
  success : Bool
  data : List EnrichedContact
  apiCalls : Nat
  error : Option String
deriving DecidableEq, Repr

/-- The POST path of the `apollo-enrichment` handler: validation
(400 on missing key or empty contact list), the bulk route for
`1 < n ≤ 10` contacts (500 when the bulk call throws, otherwise a
200 with the assembled records and `apiCalls = 1`), the
one-call-per-contact route otherwise. -/
def apolloHandler (apiKey : String) (contacts : List Contact)
    (single : Nat → SingleUpstream) (bulk : BulkUpstream) :
    HandlerResponse :=
  if apiKey = "" ∨ contacts.length = 0 then
    { status := 400, success := false, data := [], apiCalls := 0,
      error := some "Missing required fields: apiKey and contacts are required" }
  else if 1 < contacts.length ∧ contacts.length ≤ 10 then
    match bulk with
    | .thrown msg =>
      { status := 500, success := false, data := [], apiCalls := 0,
        error := some ("Bulk enrichment failed: " ++ msg) }
    | .gotMatches ms =>
      { status := 200, success := true, data := bulkAssemble contacts ms,
        apiCalls := 1, error := none }
    | .malformed =>
      { status := 200, success := true,
        data := contacts.map
          (fun c => failedEnriched c "Unexpected bulk API response format"),
        apiCalls := 1, error := none }
  else
    { status := 200, success := true,
      data := singleAssemble single 0 contacts,
      apiCalls := contacts.length, error := none }

/-! ## Helper lemmas -/

/-- The identifying fields of a contact (position-independent
identity used to state order preservation). -/
def identKeyC (c : Contact) : String × String × String :=
  (c.firstName, c.lastName, c.domain)

/-- The identifying fields of an enriched record. -/
def identKeyE (e : EnrichedContact) : String × String × String :=
  (e.firstName, e.lastName, e.domain)

theorem identKeyE_failedEnriched (c : Contact) (m : String) :
    identKeyE (failedEnriched c m) = identKeyC c := rfl

theorem identKeyE_mapApollo (c : Contact) (p : ApolloPerson) :
    identKeyE (mapApolloPersonToContact c p) = identKeyC c := rfl

theorem map_identKeyE_failed (b : List Contact) (m : String) :
    (b.map (fun c => failedEnriched c m)).map identKeyE = b.map identKeyC := by
  rw [List.map_map]
  rfl

theorem mergeData_results (s : LoopState) (d : List EnrichedContact) :
    (mergeData s d).results = s.results ++ d := by
  induction d generalizing s with
  | nil => simp [mergeData]
  | cons e rest ih =>
    simp only [mergeData, List.foldl_cons]
    by_cases he : e.enrichmentStatus = "success"
    · rw [if_pos he]
      rw [show (List.foldl _ _ rest : LoopState) = mergeData _ rest from rfl, ih]
      simp
    · rw [if_neg he]
      rw [show (List.foldl _ _ rest : LoopState) = mergeData _ rest from rfl, ih]
      simp

theorem mergeData_successCount (s : LoopState) (d : List EnrichedContact) :
    (mergeData s d).successCount =
      s.successCount +
        (d.filter (fun e => e.enrichmentStatus = "success")).length := by
  induction d generalizing s with
  | nil => simp [mergeData]
  | cons e rest ih =>
    simp only [mergeData, List.foldl_cons]
    by_cases he : e.enrichmentStatus = "success"
    · rw [if_pos he]
      rw [show (List.foldl _ _ rest : LoopState) = mergeData _ rest from rfl, ih]
      simp [he]
      omega
    · rw [if_neg he]
      rw [show (List.foldl _ _ rest : LoopState) = mergeData _ rest from rfl, ih]
      simp [he]

theorem mergeData_failCount (s : LoopState) (d : List EnrichedContact) :
    (mergeData s d).failCount =
      s.failCount +
        (d.filter (fun e => ¬e.enrichmentStatus = "success")).length := by
  induction d generalizing s with
  | nil => simp [mergeData]
  | cons e rest ih =>
    simp only [mergeData, List.foldl_cons]
    by_cases he : e.enrichmentStatus = "success"
    · rw [if_pos he]
      rw [show (List.foldl _ _ rest : LoopState) = mergeData _ rest from rfl, ih]
      simp [he]
    · rw [if_neg he]
      rw [show (List.foldl _ _ rest : LoopState) = mergeData _ rest from rfl, ih]
      simp [he]
      omega

theorem mergeData_apiCallCount (s : LoopState) (d : List EnrichedContact) :
    (mergeData s d).apiCallCount = s.apiCallCount := by
  induction d generalizing s with
  | nil => simp [mergeData]
  | cons e rest ih =>
    simp only [mergeData, List.foldl_cons]
    by_cases he : e.enrichmentStatus = "success"
    · rw [if_pos he]
      rw [show (List.foldl _ _ rest : LoopState) = mergeData _ rest from rfl, ih]
    · rw [if_neg he]
      rw [show (List.foldl _ _ rest : LoopState) = mergeData _ rest from rfl, ih]

/-- A failure outcome of the batch loop: the call threw, or the
response's `success && data` check failed. -/
def failingOutcome : BatchOutcome → Bool
  | .thrown _ => true
  | .resolved r => !(r.success && r.data.isSome)

/-- The error message attached to the synthesized failed records of
a failure outcome. -/
def outcomeErrMsg : BatchOutcome → String
  | .thrown msg => msg
  | .resolved r => optStrOr r.error "Unknown error"

theorem stepBatch_failing (s : LoopState) (b : List Contact)
    (o : BatchOutcome) (h : failingOutcome o = true) :
    (stepBatch s b o).results =
        s.results ++ b.map (fun c => failedEnriched c (outcomeErrMsg o)) ∧
      (stepBatch s b o).failCount = s.failCount + b.length ∧
      (stepBatch s b o).successCount = s.successCount := by
  cases o with
  | thrown msg => exact ⟨rfl, rfl, rfl⟩
  | resolved r =>
    simp only [failingOutcome, Bool.not_eq_true', Bool.and_eq_false_iff] at h
    cases hd : r.data with
    | none =>
      simp [stepBatch, hd, outcomeErrMsg]
    | some d =>
      rcases h with h | h
      · simp [stepBatch, hd, h, outcomeErrMsg]
      · rw [hd] at h
        simp at h

/-- The statistics invariant of the loop: `successCount` counts
exactly the success-status entries of the aggregate. -/
def statsInv (s : LoopState) : Prop :=
  s.successCount =
    (s.results.filter (fun e => e.enrichmentStatus = "success")).length

theorem mergeData_statsInv (s : LoopState) (d : List EnrichedContact)
    (h : statsInv s) : statsInv (mergeData s d) := by
  unfold statsInv at *
  rw [mergeData_results, mergeData_successCount, List.filter_append,
    List.length_append, h]

theorem filter_success_failed (b : List Contact) (m : String) :
    ((b.map (fun c => failedEnriched c m)).filter
      (fun e => e.enrichmentStatus = "success")) = [] := by
  induction b with
  | nil => rfl
  | cons c rest ih =>
    simp only [List.map_cons, List.filter_cons]
    rw [ih]
    simp [failedEnriched]

theorem stepBatch_statsInv (s : LoopState) (b : List Contact)
    (o : BatchOutcome) (h : statsInv s) : statsInv (stepBatch s b o) := by
  unfold statsInv at *
  cases o with
  | thrown msg =>
    simp only [stepBatch, List.filter_append, List.length_append,
      filter_success_failed, List.length_nil]
    omega
  | resolved r =>
    cases hd : r.data with
    | none =>
      simp only [stepBatch, hd, List.filter_append, List.length_append,
        filter_success_failed, List.length_nil]
      omega
    | some d =>
      simp only [stepBatch, hd]
      by_cases hs : r.success
      · rw [if_pos hs]
        exact mergeData_statsInv _ d h
      · rw [if_neg hs]
        simp only [List.filter_append, List.length_append,
          filter_success_failed, List.length_nil]
        omega

theorem runBatches_statsInv (oracle : Nat → BatchOutcome)
    (abort : Nat → Bool) (total : Nat) :
    ∀ (bs : List (List Contact)) (i : Nat) (s : LoopState),
      statsInv s → statsInv (runBatches oracle abort total i bs s).1 := by
  intro bs
  induction bs with
  | nil => intro i s h; exact h
  | cons b rest ih =>
    intro i s h
    simp only [runBatches]
    by_cases ha : abort i
    · simp [ha, h]
    · simp only [ha, Bool.false_eq_true, if_false]
      exact ih (i + 1) _ (stepBatch_statsInv s b (oracle i) h)

/-- Every recorded batch of the trace carries the oracle's outcome
for its index and the delay rule the source implements: delayed
exactly when the call did not throw and the batch is not the last
one. -/
theorem runBatches_procs_shape (oracle : Nat → BatchOutcome)
    (abort : Nat → Bool) (total : Nat) :
    ∀ (bs : List (List Contact)) (i : Nat) (s : LoopState),
      ∀ p ∈ (runBatches oracle abort total i bs s).2.1,
        p.outcome = oracle p.index ∧
          p.delayed =
            (!(oracle p.index).isThrown && decide (p.index < total - 1)) := by
  intro bs
  induction bs with
  | nil => intro i s p hp; simp [runBatches] at hp
  | cons b rest ih =>
    intro i s p hp
    simp only [runBatches] at hp
    by_cases ha : abort i
    · simp [ha] at hp
    · simp only [ha, Bool.false_eq_true, if_false, List.mem_cons] at hp
      rcases hp with hp | hp
      · subst hp
        exact ⟨rfl, rfl⟩
      · exact ih (i + 1) _ p hp

/-- Without an abort signal the loop records every batch, in order,
with consecutive indices, and does not break. -/
theorem runBatches_noAbort (oracle : Nat → BatchOutcome) (total : Nat) :
    ∀ (bs : List (List Contact)) (i : Nat) (s : LoopState),
      (runBatches oracle (fun _ => false) total i bs s).2.1.map
          (fun p => p.index) = List.range' i bs.length ∧
        (runBatches oracle (fun _ => false) total i bs s).2.1.map
          (fun p => p.batch) = bs ∧
        (runBatches oracle (fun _ => false) total i bs s).2.2 = false := by
  intro bs
  induction bs with
  | nil => intro i s; exact ⟨rfl, rfl, rfl⟩
  | cons b rest ih =>
    intro i s
    simp only [runBatches, Bool.false_eq_true, if_false, List.map_cons,
      List.length_cons, List.range'_succ]
    exact ⟨by rw [(ih (i + 1) _).1], by rw [(ih (i + 1) _).2.1],
      (ih (i + 1) _).2.2⟩

/-- An abort signal first observed at batch `k` makes the loop
behave exactly like the unaborted loop over the first `k - i`
remaining batches, breaking out iff batches remain. -/
theorem runBatches_abort_take (oracle : Nat → BatchOutcome) (total k : Nat) :
    ∀ (bs : List (List Contact)) (i : Nat) (s : LoopState),
      runBatches oracle (fun j => decide (k ≤ j)) total i bs s =
        ((runBatches oracle (fun _ => false) total i (bs.take (k - i)) s).1,
         (runBatches oracle (fun _ => false) total i (bs.take (k - i)) s).2.1,
         decide (k - i < bs.length)) := by
  intro bs
  induction bs with
  | nil =>
    intro i s
    simp [runBatches]
  | cons b rest ih =>
    intro i s
    by_cases hk : k ≤ i
    · have h0 : k - i = 0 := by omega
      simp [runBatches, h0, hk]
    · have h1 : k - i = (k - (i + 1)) + 1 := by omega
      rw [h1, List.take_succ_cons]
      simp only [runBatches, hk, decide_eq_true_eq, if_false,
        Bool.false_eq_true]
      rw [ih (i + 1)]
      simp only [List.length_cons]
      congr 2
      exact decide_eq_decide.mpr (by omega)

/-- Alignment of one batch outcome with its batch: whenever the
response is a success with data, the data rows carry the batch's
identifying fields, in order. -/
def alignedKeys (o : BatchOutcome) (b : List Contact) : Prop :=
  ∀ (r : BatchResponse) (d : List EnrichedContact),
    o = .resolved r → r.success = true → r.data = some d →
      d.map identKeyE = b.map identKeyC

/-- With no abort and each outcome aligned with its batch, the
aggregate extends by exactly the batches' contacts, in order. -/
theorem runBatches_keys (oracle : Nat → BatchOutcome) (total : Nat) :
    ∀ (bs : List (List Contact)) (i : Nat) (s : LoopState),
      (∀ j (hj : j < bs.length), alignedKeys (oracle (i + j)) bs[j]) →
      ((runBatches oracle (fun _ => false) total i bs s).1.results).map
          identKeyE =
        s.results.map identKeyE ++ bs.flatten.map identKeyC := by
  intro bs
  induction bs with
  | nil => intro i s _; simp [runBatches]
  | cons b rest ih =>
    intro i s hal
    simp only [runBatches, Bool.false_eq_true, if_false]
    have hrest : ∀ j (hj : j < rest.length),
        alignedKeys (oracle (i + 1 + j)) rest[j] := by
      intro j hj
      have := hal (j + 1) (by simpa using Nat.succ_lt_succ hj)
      rw [show i + (j + 1) = i + 1 + j by omega] at this
      simpa using this
    rw [ih (i + 1) _ hrest]
    have hstep : (stepBatch s b (oracle i)).results.map identKeyE =
        s.results.map identKeyE ++ b.map identKeyC := by
      cases ho : oracle i with
      | thrown msg =>
        simp only [stepBatch, List.map_append, map_identKeyE_failed]
      | resolved r =>
        cases hd : r.data with
        | none =>
          simp only [stepBatch, hd, List.map_append, map_identKeyE_failed]
        | some d =>
          by_cases hs : r.success
          · simp only [stepBatch, hd, if_pos hs, mergeData_results,
              List.map_append]
            have := hal 0 (by simp) r d (by rw [Nat.add_zero, ho]) hs hd
            simpa using this
          · simp only [stepBatch, hd, if_neg hs, List.map_append,
              map_identKeyE_failed]
    rw [hstep]
    simp [List.append_assoc]

theorem contactScore_le_100 (c : EnrichedContact) : contactScore c ≤ 100 := by
  unfold contactScore
  have h1 : (if c.email ≠ "" then 30 else 0) ≤ 30 := by split <;> omega
  have h2 : (if c.linkedinUrl ≠ "" then 25 else 0) ≤ 25 := by split <;> omega
  have h3 : (if c.title ≠ "" then 20 else 0) ≤ 20 := by split <;> omega
  have h4 : (if c.company ≠ "" then 15 else 0) ≤ 15 := by split <;> omega
  have h5 : (if c.location ≠ "" then 10 else 0) ≤ 10 := by split <;> omega
  omega

theorem sum_contactScore_le (l : List EnrichedContact) :
    (l.map contactScore).sum ≤ 100 * l.length := by
  induction l with
  | nil => simp
  | cons e rest ih =>
    simp only [List.map_cons, List.sum_cons, List.length_cons]
    have := contactScore_le_100 e
    omega

theorem roundedDiv_le_100 (a n : Nat) (hn : 0 < n) (ha : a ≤ 100 * n) :
    roundedDiv a n ≤ 100 := by
  unfold roundedDiv
  have h2n : 0 < 2 * n := by omega
  have hlt : (2 * a + n) / (2 * n) < 101 := by
    rw [Nat.div_lt_iff_lt_mul h2n]
    omega
  omega

theorem calculateQualityScore_le_100 (l : List EnrichedContact) :
    calculateQualityScore l ≤ 100 := by
  unfold calculateQualityScore
  split
  · omega
  · exact roundedDiv_le_100 _ _ (by omega) (sum_contactScore_le l)

/-! ### `removeDuplicates` lemmas -/

theorem removeDupsGo_perm (seen : List String) (l : List Contact) :
    ((removeDupsGo seen l).1 ++ (removeDupsGo seen l).2).Perm l := by
  induction l generalizing seen with
  | nil => simp [removeDupsGo]
  | cons c rest ih =>
    simp only [removeDupsGo]
    by_cases hc : dupKey c ∈ seen
    · rw [if_pos hc]
      exact (List.perm_middle).trans ((ih seen).cons c)
    · rw [if_neg hc]
      simpa using ((ih (dupKey c :: seen)).cons c)

theorem removeDupsGo_sublists (seen : List String) (l : List Contact) :
    (removeDupsGo seen l).1.Sublist l ∧ (removeDupsGo seen l).2.Sublist l := by
  induction l generalizing seen with
  | nil => simp [removeDupsGo]
  | cons c rest ih =>
    simp only [removeDupsGo]
    by_cases hc : dupKey c ∈ seen
    · rw [if_pos hc]
      exact ⟨(ih seen).1.cons c, (ih seen).2.cons₂ c⟩
    · rw [if_neg hc]
      exact ⟨(ih _).1.cons₂ c, (ih _).2.cons c⟩

theorem removeDupsGo_keys_nodup (seen : List String) (l : List Contact) :
    ((removeDupsGo seen l).1.map dupKey).Nodup ∧
      ∀ k ∈ (removeDupsGo seen l).1.map dupKey, k ∉ seen := by
  induction l generalizing seen with
  | nil => simp [removeDupsGo]
  | cons c rest ih =>
    simp only [removeDupsGo]
    by_cases hc : dupKey c ∈ seen
    · rw [if_pos hc]
      exact ih seen
    · rw [if_neg hc]
      simp only [List.map_cons, List.nodup_cons, List.mem_cons]
      obtain ⟨hnd, hdisj⟩ := ih (dupKey c :: seen)
      refine ⟨⟨fun hmem => ?_, hnd⟩, ?_⟩
      · exact (hdisj _ hmem) (List.mem_cons_self _ _)
      · rintro k (rfl | hk)
        · exact hc
        · intro hk2
          exact (hdisj _ hk) (List.mem_cons_of_mem _ hk2)

theorem removeDupsGo_mem_iff (seen : List String) (l : List Contact)
    (c : Contact) :
    c ∈ (removeDupsGo seen l).1 ↔
      dupKey c ∉ seen ∧
        l.find? (fun x => dupKey x == dupKey c) = some c := by
  induction l generalizing seen with
  | nil => simp [removeDupsGo]
  | cons x rest ih =>
    simp only [removeDupsGo]
    by_cases hx : dupKey x ∈ seen
    · rw [if_pos hx]
      rw [ih seen]
      by_cases hxc : dupKey x = dupKey c
      · constructor
        · rintro ⟨hns, _⟩
          exact absurd (hxc ▸ hx) hns
        · rintro ⟨hns, hfind⟩
          rw [List.find?_cons_of_pos _ (by simp [hxc])] at hfind
          obtain rfl : x = c := by simpa using hfind
          exact absurd (hxc ▸ hx) hns
      · rw [List.find?_cons_of_neg _ (by simp [hxc])]
    · rw [if_neg hx]
      simp only [List.mem_cons]
      by_cases hxc : dupKey x = dupKey c
      · rw [List.find?_cons_of_pos _ (by simp [hxc])]
        constructor
        · rintro (rfl | hmem)
          · exact ⟨hxc ▸ hx, rfl⟩
          · rw [ih (dupKey x :: seen)] at hmem
            exact absurd (by simp [hxc]) hmem.1
        · rintro ⟨hns, hfind⟩
          left
          exact (Option.some.inj hfind).symm
      · rw [List.find?_cons_of_neg _ (by simp [hxc])]
        constructor
        · rintro (rfl | hmem)
          · exact absurd rfl hxc
          · rw [ih (dupKey x :: seen)] at hmem
            refine ⟨fun hs => hmem.1 (List.mem_cons_of_mem _ hs), hmem.2⟩
        · rintro ⟨hns, hfind⟩
          right
          rw [ih (dupKey x :: seen)]
          refine ⟨?_, hfind⟩
          simp only [List.mem_cons]
          rintro (heq | hs)
          · exact hxc heq.symm
          · exact hns hs

/-! ### Serverless handler lemmas -/

theorem bulkAssemble_keys (cs : List Contact)
    (ms : List (Option ApolloPerson)) :
    (bulkAssemble cs ms).map identKeyE = cs.map identKeyC := by
  induction cs generalizing ms with
  | nil => cases ms <;> rfl
  | cons c rest ih =>
    cases ms with
    | nil => simp [bulkAssemble, ih, identKeyE_failedEnriched]
    | cons m mrest =>
      cases m with
      | none => simp [bulkAssemble, ih, identKeyE_failedEnriched]
      | some p => simp [bulkAssemble, ih, identKeyE_mapApollo]

theorem bulkAssemble_status (cs : List Contact)
    (ms : List (Option ApolloPerson)) :
    ∀ e ∈ bulkAssemble cs ms,
      e.enrichmentStatus = "success" ∨ e.enrichmentStatus = "failed" := by
  induction cs generalizing ms with
  | nil => intro e he; cases ms <;> simp [bulkAssemble] at he
  | cons c rest ih =>
    intro e he
    cases ms with
    | nil =>
      simp only [bulkAssemble, List.mem_cons] at he
      rcases he with rfl | he
      · right; rfl
      · exact ih [] e he
    | cons m mrest =>
      simp only [bulkAssemble, List.mem_cons] at he
      rcases he with rfl | he
      · cases m with
        | none => right; rfl
        | some p => left; rfl
      · exact ih mrest e he

theorem singleAssemble_keys (single : Nat → SingleUpstream) :
    ∀ (cs : List Contact) (i : Nat),
      (singleAssemble single i cs).map identKeyE = cs.map identKeyC := by
  intro cs
  induction cs with
  | nil => intro i; rfl
  | cons c rest ih =>
    intro i
    simp only [singleAssemble, List.map_cons, ih (i + 1)]
    cases single i with
    | thrown msg => rfl
    | ok person => cases person <;> rfl

theorem singleAssemble_status (single : Nat → SingleUpstream) :
    ∀ (cs : List Contact) (i : Nat), ∀ e ∈ singleAssemble single i cs,
      e.enrichmentStatus = "success" ∨ e.enrichmentStatus = "failed" := by
  intro cs
  induction cs with
  | nil => intro i e he; simp [singleAssemble] at he
  | cons c rest ih =>
    intro i e he
    simp only [singleAssemble, List.mem_cons] at he
    rcases he with rfl | he
    · cases hs : single i with
      | thrown msg => right; rfl
      | ok person => cases person with
        | none => right; rfl
        | some p => left; rfl
    · exact ih (i + 1) e he

/-! ## Concrete fixtures used by witnesses and counterexamples -/

/-- A success-status record for a contact (what a fully successful
enrichment response row looks like, as far as the client's counting
is concerned). -/
def successEntry (c : Contact) : EnrichedContact :=
  { failedEnriched c "" with enrichmentStatus := "success", error := none }

/-- Three distinct contacts. -/
def csW : List Contact :=
  [⟨"A", "B", "c", ""⟩, ⟨"D", "E", "f", ""⟩, ⟨"G", "H", "i", ""⟩]

/-- Six distinct contacts (two batches at batch size 5). -/
def cexContacts : List Contact :=
  [⟨"A", "A", "a", ""⟩, ⟨"B", "B", "b", ""⟩, ⟨"C", "C", "c", ""⟩,
   ⟨"D", "D", "d", ""⟩, ⟨"E", "E", "e", ""⟩, ⟨"F", "F", "f", ""⟩]

/-- An oracle whose every call throws. -/
def thrownOracle : Nat → BatchOutcome := fun _ => .thrown "boom"

/-- Twenty-three identical contacts (the 23-contact scenario). -/
def c2Contacts : List Contact := List.replicate 23 ⟨"A", "B", "c", ""⟩

/-- The oracle of the 23-contact scenario: batch 2 (index 1) fails
with an unsuccessful response, batches 1 and 3 succeed fully with
one success row per contact and one reported API call. -/
def c2Oracle : Nat → BatchOutcome := fun i =>
  if i = 1 then .resolved ⟨false, none, none, some "Simulated error"⟩
  else .resolved
    ⟨true, some (((chunkList 10 c2Contacts).getD i []).map successEntry),
     some 1, none⟩

/-! ## Claims -/

/-- C1: for every non-empty contact list and batch size B in
{5, 10, 25}, with a valid credential, no pause and every successful
response aligned with its batch, the run partitions the list into
exactly ceil(N/B) contiguous batches in list order (their
concatenation is the input), and the final aggregate has one entry
per input contact, in input order (same identifying fields at every
position). -/
theorem claim_C1 (apiKey : String) (cs : List Contact) (B : Nat)
    (oracle : Nat → BatchOutcome) (hB : B = 5 ∨ B = 10 ∨ B = 25)
    (hcs : cs ≠ []) (hKey : ¬jsTrim apiKey = "")
    (hal : ∀ j (hj : j < (chunkList B cs).length),
      alignedKeys (oracle j) (chunkList B cs)[j]) :
    (startEnrichment apiKey cs B (fun _ => false) oracle).totalBatches =
        (cs.length + B - 1) / B ∧
      (chunkList B cs).flatten = cs ∧
      (startEnrichment apiKey cs B (fun _ => false) oracle).results.map
          identKeyE = cs.map identKeyC := by
  have hB0 : 0 < B := by rcases hB with rfl | rfl | rfl <;> omega
  have hlen : ¬cs.length = 0 := by
    simpa using fun h => hcs (List.length_eq_zero.mp h)
  have hjoin := chunkList_join B hB0 cs
  refine ⟨?_, hjoin, ?_⟩
  · simp only [startEnrichment, if_neg hKey, if_neg hlen]
    exact chunkList_length B hB0 cs
  · simp only [startEnrichment, if_neg hKey, if_neg hlen]
    have hal0 : ∀ j (hj : j < (chunkList B cs).length),
        alignedKeys (oracle (0 + j)) (chunkList B cs)[j] := by
      intro j hj
      rw [Nat.zero_add]
      exact hal j hj
    rw [runBatches_keys oracle (chunkList B cs).length (chunkList B cs) 0
      initState hal0]
    rw [hjoin]
    rfl

/-- C1 witness: a concrete three-contact run at batch size 5 whose
single batch throws (alignment holds vacuously). -/
theorem claim_C1_witness :
    (startEnrichment "k" csW 5 (fun _ => false) thrownOracle).totalBatches =
        (csW.length + 5 - 1) / 5 ∧
      (chunkList 5 csW).flatten = csW ∧
      (startEnrichment "k" csW 5 (fun _ => false) thrownOracle).results.map
          identKeyE = csW.map identKeyC :=
  claim_C1 "k" csW 5 thrownOracle (Or.inl rfl) (by decide) (by decide)
    (fun j hj r d h => BatchOutcome.noConfusion h)

/-- C2: in the 23-contact run at batch size 10 where batch 2's call
fails (the call resolves unsuccessfully) and batches 1 and 3
succeed fully with one API call each, the final statistics are
processed = 23, failed = 10, successful = 13, apiCalls = 3, and the
run completes. -/
theorem claim_C2 :
    (startEnrichment "k" c2Contacts 10 (fun _ => false) c2Oracle).stats.processed
        = 23 ∧
      (startEnrichment "k" c2Contacts 10 (fun _ => false) c2Oracle).stats.failed
        = 10 ∧
      (startEnrichment "k" c2Contacts 10 (fun _ => false) c2Oracle).stats.successful
        = 13 ∧
      (startEnrichment "k" c2Contacts 10 (fun _ => false) c2Oracle).stats.apiCalls
        = 3 ∧
      (startEnrichment "k" c2Contacts 10 (fun _ => false) c2Oracle).state
        = RunState.Completed := by
  decide

/-- C3: a batch whose external call fails (thrown, or resolved
without `success && data`) appends exactly batch-length failed
records carrying the error message, bumps the failed counter and
the aggregate (processed) size by the batch length, leaves the
successful counter unchanged — and no failure stops the loop: every
unaborted run processes every batch. -/
theorem claim_C3 (s : LoopState) (b : List Contact) (o : BatchOutcome)
    (h : failingOutcome o = true) :
    (stepBatch s b o).results =
        s.results ++ b.map (fun c => failedEnriched c (outcomeErrMsg o)) ∧
      (∀ e ∈ (stepBatch s b o).results.drop s.results.length,
        e.enrichmentStatus = "failed" ∧ e.error = some (outcomeErrMsg o)) ∧
      (stepBatch s b o).results.length = s.results.length + b.length ∧
      (stepBatch s b o).failCount = s.failCount + b.length ∧
      (stepBatch s b o).successCount = s.successCount ∧
      ∀ (apiKey : String) (cs : List Contact) (B : Nat)
        (oracle : Nat → BatchOutcome),
        (startEnrichment apiKey cs B (fun _ => false) oracle).procs.map
            (fun p => p.index) =
          List.range
            (startEnrichment apiKey cs B (fun _ => false) oracle).totalBatches := by
  obtain ⟨hres, hfail, hsucc⟩ := stepBatch_failing s b o h
  refine ⟨hres, ?_, ?_, hfail, hsucc, ?_⟩
  · intro e he
    rw [hres, List.drop_left] at he
    obtain ⟨c, _, rfl⟩ := List.mem_map.mp he
    exact ⟨rfl, rfl⟩
  · rw [hres]
    simp
  · intro apiKey cs B oracle
    by_cases hKey : jsTrim apiKey = ""
    · simp [startEnrichment, hKey, idleResult]
    · by_cases hlen : cs.length = 0
      · simp [startEnrichment, hKey, hlen, idleResult]
      · simp only [startEnrichment, if_neg hKey, if_neg hlen]
        rw [(runBatches_noAbort oracle (chunkList B cs).length
          (chunkList B cs) 0 initState).1]
        rw [List.range_eq_range']

/-- C3 witness: a one-contact batch whose call throws. -/
theorem claim_C3_witness :
    failingOutcome (BatchOutcome.thrown "boom") = true ∧
      (stepBatch initState csW (BatchOutcome.thrown "boom")).failCount =
        initState.failCount + csW.length :=
  ⟨rfl, (claim_C3 initState csW (BatchOutcome.thrown "boom") rfl).2.2.2.1⟩

/-- C4: for every run, the final qualityScore equals the rounded
mean of the per-contact quality scores over exactly the
success-status aggregate entries, is at most 100 (hence in
[0, 100]), and is 0 whenever the successful counter is 0. -/
theorem claim_C4 (apiKey : String) (cs : List Contact) (B : Nat)
    (abort : Nat → Bool) (oracle : Nat → BatchOutcome) :
    (startEnrichment apiKey cs B abort oracle).stats.qualityScore =
        calculateQualityScore
          ((startEnrichment apiKey cs B abort oracle).results.filter
            (fun e => e.enrichmentStatus = "success")) ∧
      (startEnrichment apiKey cs B abort oracle).stats.qualityScore ≤ 100 ∧
      ((startEnrichment apiKey cs B abort oracle).stats.successful = 0 →
        (startEnrichment apiKey cs B abort oracle).stats.qualityScore = 0) := by
  by_cases hKey : jsTrim apiKey = ""
  · simp [startEnrichment, hKey, idleResult, calculateQualityScore]
  · by_cases hlen : cs.length = 0
    · simp [startEnrichment, hKey, hlen, idleResult, calculateQualityScore]
    · simp only [startEnrichment, if_neg hKey, if_neg hlen]
      refine ⟨?_, calculateQualityScore_le_100 _, ?_⟩
      · trivial
      intro hzero
      have hinv := runBatches_statsInv oracle abort (chunkList B cs).length
        (chunkList B cs) 0 initState rfl
      unfold statsInv at hinv
      have hnil : ((runBatches oracle abort (chunkList B cs).length 0
          (chunkList B cs) initState).1.results.filter
            (fun e => e.enrichmentStatus = "success")) = [] := by
        refine List.length_eq_zero.mp ?_
        rw [← hinv]
        exact hzero
      simp only [hnil]
      rfl

/-- C4 witness: the theorem applied at a concrete run. -/
theorem claim_C4_witness :
    (startEnrichment "k" csW 5 (fun _ => false) thrownOracle).stats.qualityScore
      ≤ 100 :=
  (claim_C4 "k" csW 5 (fun _ => false) thrownOracle).2.1

/-- C5: a run with an empty (after trimming) credential or an empty
contact list fails validation before any batch: no external call is
recorded, the aggregate is empty, all statistics are zero, and the
run stays Idle. -/
theorem claim_C5 (apiKey : String) (cs : List Contact) (B : Nat)
    (abort : Nat → Bool) (oracle : Nat → BatchOutcome)
    (h : jsTrim apiKey = "" ∨ cs = []) :
    startEnrichment apiKey cs B abort oracle = idleResult ∧
      (startEnrichment apiKey cs B abort oracle).state = RunState.Idle ∧
      (startEnrichment apiKey cs B abort oracle).procs = [] ∧
      (startEnrichment apiKey cs B abort oracle).results = [] ∧
      (startEnrichment apiKey cs B abort oracle).stats = ⟨0, 0, 0, 0, 0, 0⟩ := by
  have hidle : startEnrichment apiKey cs B abort oracle = idleResult := by
    rcases h with h | h
    · simp [startEnrichment, h]
    · subst h
      by_cases hKey : jsTrim apiKey = "" <;> simp [startEnrichment, hKey]
  exact ⟨hidle, by rw [hidle]; rfl, by rw [hidle]; rfl, by rw [hidle]; rfl,
    by rw [hidle]; rfl⟩

/-- C5 witness: an all-whitespace credential. -/
theorem claim_C5_witness :
    (jsTrim "  " = "" ∨ csW = []) ∧
      (startEnrichment "  " csW 5 (fun _ => false) thrownOracle).state =
        RunState.Idle :=
  ⟨Or.inl (by decide),
    (claim_C5 "  " csW 5 (fun _ => false) thrownOracle (Or.inl (by decide))).2.1⟩

/-- C6 counterexample: with six contacts at batch size 5, a pause
observed before batch index 1 leaves one contact unprocessed (the
first run ends Paused with 5 aggregate entries); but invoking the
start operation again runs over all 6 contacts — not over the
1-contact unprocessed suffix, as the claim's resume clause
states. -/
theorem claim_C6_cex :
    (startEnrichment "k" cexContacts 5 (fun i => decide (1 ≤ i))
        thrownOracle).state = RunState.Paused ∧
      (startEnrichment "k" cexContacts 5 (fun i => decide (1 ≤ i))
        thrownOracle).results.length = 5 ∧
      (startEnrichment "k" cexContacts 5 (fun _ => false)
        thrownOracle).results.length = 6 ∧
      ¬(startEnrichment "k" cexContacts 5 (fun _ => false)
          thrownOracle).results.length =
        cexContacts.length -
          (startEnrichment "k" cexContacts 5 (fun i => decide (1 ≤ i))
            thrownOracle).results.length := by
  decide

/-- C6 (amended): if the pause signal is first observed at the top
of batch k, batches k..N are never started and contribute nothing —
the run's aggregate, trace and statistics equal those of the
unaborted loop over the first k batches, and the run ends Paused
(when batches remained).  A subsequent start, however, re-runs
orchestration over the entire contact list from the first batch
(statistics reset), not over just the unprocessed suffix. -/
theorem claim_C6 (apiKey : String) (cs : List Contact) (B : Nat)
    (oracle : Nat → BatchOutcome) (k : Nat)
    (hKey : ¬jsTrim apiKey = "") (hcs : ¬cs.length = 0) :
    (∀ p ∈ (startEnrichment apiKey cs B (fun j => decide (k ≤ j))
        oracle).procs, p.index < k) ∧
      (startEnrichment apiKey cs B (fun j => decide (k ≤ j)) oracle).results =
        (runBatches oracle (fun _ => false) (chunkList B cs).length 0
          ((chunkList B cs).take k) initState).1.results ∧
      (startEnrichment apiKey cs B (fun j => decide (k ≤ j)) oracle).procs =
        (runBatches oracle (fun _ => false) (chunkList B cs).length 0
          ((chunkList B cs).take k) initState).2.1 ∧
      (startEnrichment apiKey cs B (fun j => decide (k ≤ j))
          oracle).stats.successful =
        (runBatches oracle (fun _ => false) (chunkList B cs).length 0
          ((chunkList B cs).take k) initState).1.successCount ∧
      (startEnrichment apiKey cs B (fun j => decide (k ≤ j))
          oracle).stats.failed =
        (runBatches oracle (fun _ => false) (chunkList B cs).length 0
          ((chunkList B cs).take k) initState).1.failCount ∧
      (startEnrichment apiKey cs B (fun j => decide (k ≤ j))
          oracle).stats.apiCalls =
        (runBatches oracle (fun _ => false) (chunkList B cs).length 0
          ((chunkList B cs).take k) initState).1.apiCallCount ∧
      (k < (chunkList B cs).length →
        (startEnrichment apiKey cs B (fun j => decide (k ≤ j))
          oracle).state = RunState.Paused) ∧
      (startEnrichment apiKey cs B (fun _ => false) oracle).procs.map
          (fun p => p.batch) = chunkList B cs := by
  have htake := runBatches_abort_take oracle (chunkList B cs).length k
    (chunkList B cs) 0 initState
  rw [Nat.sub_zero] at htake
  constructor
  · intro p hp
    simp only [startEnrichment, if_neg hKey, if_neg hcs] at hp
    rw [htake] at hp
    dsimp only at hp
    have hmem : p.index ∈ (runBatches oracle (fun _ => false)
        (chunkList B cs).length 0 ((chunkList B cs).take k)
        initState).2.1.map (fun p => p.index) :=
      List.mem_map_of_mem _ hp
    rw [(runBatches_noAbort oracle (chunkList B cs).length _ 0 initState).1]
      at hmem
    have := List.mem_range'_1.mp hmem
    have hlen2 := List.length_take k (chunkList B cs)
    omega
  refine ⟨?_, ?_, ?_, ?_, ?_, ?_, ?_⟩
  · simp only [startEnrichment, if_neg hKey, if_neg hcs]
    rw [htake]
  · simp only [startEnrichment, if_neg hKey, if_neg hcs]
    rw [htake]
  · simp only [startEnrichment, if_neg hKey, if_neg hcs]
    rw [htake]
  · simp only [startEnrichment, if_neg hKey, if_neg hcs]
    rw [htake]
  · simp only [startEnrichment, if_neg hKey, if_neg hcs]
    rw [htake]
  · intro hk
    simp only [startEnrichment, if_neg hKey, if_neg hcs]
    rw [htake]
    simp [hk]
  · simp only [startEnrichment, if_neg hKey, if_neg hcs]
    exact (runBatches_noAbort oracle (chunkList B cs).length
      (chunkList B cs) 0 initState).2.1

/-- C6 witness: the amended theorem at the six-contact run paused
before batch 1. -/
theorem claim_C6_witness :
    (¬jsTrim "k" = "") ∧
      ∀ p ∈ (startEnrichment "k" cexContacts 5 (fun j => decide (1 ≤ j))
        thrownOracle).procs, p.index < 1 :=
  ⟨by decide,
    (claim_C6 "k" cexContacts 5 thrownOracle 1 (by decide) (by decide)).1⟩

/-- C7 counterexample: a single successful batch of two contacts
with one reported API call leaves creditsUsed = 1, not 2 = batch
length: creditsUsed does not increase by the batch length. -/
theorem claim_C7_cex :
    (startEnrichment "k" [⟨"A", "A", "a", ""⟩, ⟨"B", "B", "b", ""⟩] 5
        (fun _ => false)
        (fun _ => BatchOutcome.resolved
          ⟨true, some ([⟨"A", "A", "a", ""⟩, ⟨"B", "B", "b", ""⟩].map
            successEntry), some 1, none⟩)).stats.successful = 2 ∧
      (startEnrichment "k" [⟨"A", "A", "a", ""⟩, ⟨"B", "B", "b", ""⟩] 5
        (fun _ => false)
        (fun _ => BatchOutcome.resolved
          ⟨true, some ([⟨"A", "A", "a", ""⟩, ⟨"B", "B", "b", ""⟩].map
            successEntry), some 1, none⟩)).totalBatches = 1 ∧
      (startEnrichment "k" [⟨"A", "A", "a", ""⟩, ⟨"B", "B", "b", ""⟩] 5
        (fun _ => false)
        (fun _ => BatchOutcome.resolved
          ⟨true, some ([⟨"A", "A", "a", ""⟩, ⟨"B", "B", "b", ""⟩].map
            successEntry), some 1, none⟩)).stats.creditsUsed = 1 ∧
      ¬(startEnrichment "k" [⟨"A", "A", "a", ""⟩, ⟨"B", "B", "b", ""⟩] 5
        (fun _ => false)
        (fun _ => BatchOutcome.resolved
          ⟨true, some ([⟨"A", "A", "a", ""⟩, ⟨"B", "B", "b", ""⟩].map
            successEntry), some 1, none⟩)).stats.creditsUsed = 2 := by
  decide

/-- C7 (amended): for every batch whose external call succeeds
(resolved, `success` true, `data` present with one row per batch
member), the statistics update increases processed (the aggregate
size) by the batch length, successful and failed by the per-row
counts of the response, and apiCalls by the reported call count (1
when unreported or zero); creditsUsed always mirrors the cumulative
apiCalls value — it does not increase by the batch length. -/
theorem claim_C7 (s : LoopState) (b : List Contact) (r : BatchResponse)
    (d : List EnrichedContact) (hs : r.success = true) (hd : r.data = some d)
    (hlen : d.length = b.length) :
    (stepBatch s b (BatchOutcome.resolved r)).results.length =
        s.results.length + b.length ∧
      (stepBatch s b (BatchOutcome.resolved r)).successCount =
        s.successCount +
          (d.filter (fun e => e.enrichmentStatus = "success")).length ∧
      (stepBatch s b (BatchOutcome.resolved r)).failCount =
        s.failCount +
          (d.filter (fun e => ¬e.enrichmentStatus = "success")).length ∧
      (stepBatch s b (BatchOutcome.resolved r)).apiCallCount =
        s.apiCallCount + natOr r.apiCalls 1 ∧
      ∀ (apiKey : String) (cs : List Contact) (B : Nat)
        (abort : Nat → Bool) (oracle : Nat → BatchOutcome),
        (startEnrichment apiKey cs B abort oracle).stats.creditsUsed =
          (startEnrichment apiKey cs B abort oracle).stats.apiCalls := by
  refine ⟨?_, ?_, ?_, ?_, ?_⟩
  · simp only [stepBatch, hd, if_pos hs, mergeData_results,
      List.length_append]
    omega
  · simp only [stepBatch, hd, if_pos hs, mergeData_successCount]
  · simp only [stepBatch, hd, if_pos hs, mergeData_failCount]
  · simp only [stepBatch, hd, if_pos hs, mergeData_apiCallCount]
  · intro apiKey cs B abort oracle
    by_cases hKey : jsTrim apiKey = ""
    · simp [startEnrichment, hKey, idleResult]
    · by_cases hlen2 : cs.length = 0
      · simp [startEnrichment, hKey, hlen2, idleResult]
      · simp only [startEnrichment, if_neg hKey, if_neg hlen2]

/-- C7 witness: the amended theorem at a concrete two-contact
successful batch. -/
theorem claim_C7_witness :
    ((⟨true, some (csW.map successEntry), some 1, none⟩ :
        BatchResponse).success = true) ∧
      (stepBatch initState csW (BatchOutcome.resolved
          ⟨true, some (csW.map successEntry), some 1, none⟩)).results.length =
        initState.results.length + csW.length :=
  ⟨rfl,
    (claim_C7 initState csW ⟨true, some (csW.map successEntry), some 1, none⟩
      (csW.map successEntry) rfl rfl (by decide)).1⟩

/-- The oracle of the delay counterexample: batch 0 throws, batch 1
resolves successfully. -/
def oracleC8 : Nat → BatchOutcome := fun i =>
  if i = 0 then .thrown "boom"
  else .resolved ⟨true, some [], some 1, none⟩

/-- C8 counterexample: a two-batch run that never pauses, whose
first (non-final) batch throws: no delay is performed after batch
0, although it is not the final batch and the run is not paused —
the delay sits inside the `try` and a thrown call skips it. -/
theorem claim_C8_cex :
    (startEnrichment "k" cexContacts 5 (fun _ => false)
        oracleC8).totalBatches = 2 ∧
      (startEnrichment "k" cexContacts 5 (fun _ => false) oracleC8).procs.map
          (fun p => (p.index, p.delayed)) = [(0, false), (1, false)] ∧
      (startEnrichment "k" cexContacts 5 (fun _ => false) oracleC8).state =
        RunState.Completed := by
  decide

/-- C8 (amended): the inter-batch delay runs after batch i exactly
when batch i is not the final batch of the partition and batch i's
external call did not throw; in particular no delay follows the
final batch, and a thrown batch is never followed by a delay.  (The
pause signal plays no role: it is only read at the top of an
iteration, before any batch work.) -/
theorem claim_C8 (apiKey : String) (cs : List Contact) (B : Nat)
    (abort : Nat → Bool) (oracle : Nat → BatchOutcome) :
    ∀ p ∈ (startEnrichment apiKey cs B abort oracle).procs,
      (p.delayed = true ↔
        (p.index < (startEnrichment apiKey cs B abort oracle).totalBatches - 1 ∧
          p.outcome.isThrown = false)) := by
  intro p hp
  by_cases hKey : jsTrim apiKey = ""
  · simp [startEnrichment, hKey, idleResult] at hp
  · by_cases hlen : cs.length = 0
    · simp [startEnrichment, hKey, hlen, idleResult] at hp
    · simp only [startEnrichment, if_neg hKey, if_neg hlen] at hp ⊢
      obtain ⟨hout, hdel⟩ := runBatches_procs_shape oracle abort
        (chunkList B cs).length (chunkList B cs) 0 initState p hp
      rw [hdel, ← hout]
      simp [Bool.and_eq_true, Bool.not_eq_true', and_comm]

/-- C8 witness: the amended theorem at the second batch of the
counterexample run (final batch, resolved, not delayed). -/
theorem claim_C8_witness :
    ((⟨1, [⟨"F", "F", "f", ""⟩],
        BatchOutcome.resolved ⟨true, some [], some 1, none⟩, false⟩ :
          BatchProc) ∈
        (startEnrichment "k" cexContacts 5 (fun _ => false) oracleC8).procs) ∧
      ((⟨1, [⟨"F", "F", "f", ""⟩],
          BatchOutcome.resolved ⟨true, some [], some 1, none⟩, false⟩ :
            BatchProc).delayed = true ↔
        ((⟨1, [⟨"F", "F", "f", ""⟩],
            BatchOutcome.resolved ⟨true, some [], some 1, none⟩, false⟩ :
              BatchProc).index <
            (startEnrichment "k" cexContacts 5 (fun _ => false)
              oracleC8).totalBatches - 1 ∧
          (⟨1, [⟨"F", "F", "f", ""⟩],
              BatchOutcome.resolved ⟨true, some [], some 1, none⟩, false⟩ :
                BatchProc).outcome.isThrown = false)) :=
  ⟨by decide,
    claim_C8 "k" cexContacts 5 (fun _ => false) oracleC8 _ (by decide)⟩

/-- C9: every success response of the serverless function carries
one record per input contact, in input order (same identifying
fields at every position), each with status success or failed. -/
theorem claim_C9 (apiKey : String) (contacts : List Contact)
    (single : Nat → SingleUpstream) (bulk : BulkUpstream)
    (h : (apolloHandler apiKey contacts single bulk).success = true) :
    (apolloHandler apiKey contacts single bulk).data.map identKeyE =
        contacts.map identKeyC ∧
      ∀ e ∈ (apolloHandler apiKey contacts single bulk).data,
        e.enrichmentStatus = "success" ∨ e.enrichmentStatus = "failed" := by
  unfold apolloHandler at h ⊢
  by_cases hval : apiKey = "" ∨ contacts.length = 0
  · rw [if_pos hval] at h
    simp at h
  · rw [if_neg hval] at h ⊢
    by_cases hbulk : 1 < contacts.length ∧ contacts.length ≤ 10
    · rw [if_pos hbulk] at h ⊢
      cases bulk with
      | thrown msg => simp at h
      | gotMatches ms =>
        exact ⟨bulkAssemble_keys contacts ms, bulkAssemble_status contacts ms⟩
      | malformed =>
        refine ⟨map_identKeyE_failed contacts _, ?_⟩
        intro e he
        obtain ⟨c, _, rfl⟩ := List.mem_map.mp he
        right
        rfl
    · rw [if_neg hbulk] at h ⊢
      exact ⟨singleAssemble_keys single contacts 0,
        singleAssemble_status single contacts 0⟩

/-- C9 witness: a one-contact request down the single-contact path
whose upstream body has no person. -/
theorem claim_C9_witness :
    ((apolloHandler "k" csW (fun _ => SingleUpstream.ok none)
        BulkUpstream.malformed).success = true) ∧
      (apolloHandler "k" csW (fun _ => SingleUpstream.ok none)
          BulkUpstream.malformed).data.map identKeyE =
        csW.map identKeyC :=
  ⟨rfl,
    (claim_C9 "k" csW (fun _ => SingleUpstream.ok none)
      BulkUpstream.malformed rfl).1⟩

/-- C10 counterexample: the key is the hyphen-joined lowercased
string, which conflates distinct field triples containing hyphens:
with input `[{a-b, c, d}, {a, b-c, d}]` the second contact is the
first (and only) occurrence of its case-insensitive
(firstName, lastName, domain) triple, yet it is classified as a
duplicate and not kept. -/
theorem claim_C10_cex :
    (⟨"a", "b-c", "d", ""⟩ : Contact) ∈
        (removeDuplicates
          [⟨"a-b", "c", "d", ""⟩, ⟨"a", "b-c", "d", ""⟩]).2 ∧
      ∀ c ∈ ([⟨"a-b", "c", "d", ""⟩, ⟨"a", "b-c", "d", ""⟩] : List Contact),
        c ≠ ⟨"a", "b-c", "d", ""⟩ →
          tripleKey c ≠ tripleKey ⟨"a", "b-c", "d", ""⟩ := by
  decide

/-- C10 (amended): `removeDuplicates` partitions its input (the two
outputs together are a permutation of the input, each a subsequence
of it, so relative order is preserved on both sides), and `unique`
keeps exactly the first occurrence of each lowercased hyphen-joined
`firstName-lastName-domain` string key — which coincides with the
case-insensitive field triple only when the fields contain no
hyphens. -/
theorem claim_C10 (data : List Contact) :
    ((removeDuplicates data).1 ++ (removeDuplicates data).2).Perm data ∧
      (removeDuplicates data).1.Sublist data ∧
      (removeDuplicates data).2.Sublist data ∧
      ((removeDuplicates data).1.map dupKey).Nodup ∧
      ∀ c : Contact,
        c ∈ (removeDuplicates data).1 ↔
          data.find? (fun x => dupKey x == dupKey c) = some c := by
  refine ⟨removeDupsGo_perm [] data, (removeDupsGo_sublists [] data).1,
    (removeDupsGo_sublists [] data).2, (removeDupsGo_keys_nodup [] data).1,
    ?_⟩
  intro c
  rw [removeDuplicates, removeDupsGo_mem_iff]
  simp

/-- C10 witness: the amended characterization at a concrete list
with one repeated key. -/
theorem claim_C10_witness :
    (removeDuplicates [⟨"A", "B", "c", ""⟩, ⟨"a", "b", "C", ""⟩,
        ⟨"D", "E", "f", ""⟩]).1.Sublist
      [⟨"A", "B", "c", ""⟩, ⟨"a", "b", "C", ""⟩, ⟨"D", "E", "f", ""⟩] :=
  (claim_C10 [⟨"A", "B", "c", ""⟩, ⟨"a", "b", "C", ""⟩,
    ⟨"D", "E", "f", ""⟩]).2.1

end TDTools
